import Mathlib

/-!
# Shallow embedding of `src/main.py` (a contact-book program)

The Python program keeps an `AddressBook` (a `UserDict`, i.e. an insertion-ordered
mapping from contact names to `Record` objects), where a `Record` holds a `Name`,
a list of `Phone` objects and an optional `Birthday`.  Phones are validated by a
property setter against the regular expression `^\+?380\d{9}$`; birthdays are
parsed from `DDMMYYYY` strings by `datetime.strptime` and possibly bumped one
year forward; the book is pickled to and unpickled from a file.

This file translates those classes and methods into Lean definitions:

* Python exceptions become `Except PyError` results;
* the global `date.today()` becomes an explicit `today : Date` argument;
* the ordered `dict` becomes an association list in insertion order, with
  `dict[k] = v` replacing the value in place for an existing key and appending
  for a new one;
* `pickle.dump`/`pickle.load` become an exact round-trip on the stored mapping
  (`PickleFile.valid`), plus a `PickleFile.corrupt` constructor standing for any
  file whose bytes fail to unpickle;
* Python `\d` is modelled as an ASCII digit and `str.lower` as ASCII lowering
  (every input appearing in the specification is ASCII).
-/

/-- The Python exceptions that the translated code can raise. -/
inductive PyError where
  | valueError : String → PyError
  | keyError : PyError
  | indexError : PyError
  | attributeError : String → PyError
  | unpicklingError : PyError
deriving DecidableEq

deriving instance DecidableEq for Except

/-! ## Phone validation (`Phone.value` setter, `src/main.py` lines 27-40)

The setter runs `re.match` with the pattern `^\+?380\d{9}$` and raises `ValueError`
when there is no match.  `re.match` anchors at the start; the `$` anchor
accepts either the end of the string or a position just before one final
newline, so the matcher below also accepts one trailing `'\n'`.  The leading
`'+'` is optional in the pattern (`\+?`); after an optional `'+'` the literal
`380` must follow (a `'+'` can never match the literal `'3'`, so there is no
backtracking to model). -/

/-- ASCII decimal digit, the model of `\d` on the ASCII inputs considered. -/
def isAsciiDigit (c : Char) : Bool := '0' ≤ c && c ≤ '9'

/-- The part `\d{9}$` of the phone pattern: nine digits, then either the end of
the string or one final newline (Python `$` semantics without `re.MULTILINE`). -/
def digitsTail (rest : List Char) : Bool :=
  (rest.length == 9 && rest.all isAsciiDigit)
  || (rest.length == 10 && (rest.take 9).all isAsciiDigit && rest.drop 9 == ['\n'])

/-- The part `380\d{9}$` of the phone pattern. -/
def tailMatch (cs : List Char) : Bool :=
  cs.take 3 == ['3', '8', '0'] && digitsTail (cs.drop 3)

/-- Predicate form of `re.match` with the pattern `^\+?380\d{9}$`. -/
def phoneMatch (s : String) : Bool :=
  if s.data.head? == some '+' then tailMatch s.data.tail else tailMatch s.data

/-- A `Phone` object: the `_value` set by the validating setter.  The setter
lets `None` through unchanged (`value is not None and ...`), hence the
`Option`. -/
structure Phone where
  value : Option String
deriving DecidableEq

/-- Constructor `Phone.__init__` / the `Phone.value` setter (`src/main.py` lines 27-40). -/
def Phone.make (value : Option String) : Except PyError Phone :=
  match value with
  | none => .ok ⟨none⟩
  | some s =>
    if phoneMatch s then .ok ⟨some s⟩
    else .error (.valueError "Phone number should be in the format +380XXXXXXXXX")

/-! ## Calendar model (`datetime.date`)

`datetime.date` objects are triples `(year, month, day)` with
`1 <= year <= 9999`, `1 <= month <= 12` and `1 <= day <=` the length of the
month; constructing an out-of-range date raises `ValueError`.  Comparison is
lexicographic and subtraction yields a day count; the day count is modelled by
`Date.ord`, an ordinal that counts days from a fixed epoch (subtracting two
ordinals gives exactly Python `(a - b).days`). -/

/-- Gregorian leap-year rule, as used by `datetime`. -/
def isLeapYear (y : Nat) : Bool := y % 4 == 0 && (y % 100 != 0 || y % 400 == 0)

/-- Length of month `m` (1-12) in a leap or common year; 0 outside 1-12. -/
def daysInMonth (leap : Bool) : Nat → Nat
  | 1 => 31
  | 2 => if leap then 29 else 28
  | 3 => 31
  | 4 => 30
  | 5 => 31
  | 6 => 30
  | 7 => 31
  | 8 => 31
  | 9 => 30
  | 10 => 31
  | 11 => 30
  | 12 => 31
  | _ => 0

/-- Days in the months strictly before month `m`. -/
def daysBeforeMonth (leap : Bool) : Nat → Nat
  | 0 => 0
  | m + 1 => daysBeforeMonth leap m + daysInMonth leap m

/-- Length of year `y` in days. -/
def daysInYear (y : Nat) : Nat := if isLeapYear y then 366 else 365

/-- Days in the years strictly before year `y` (counting from year 0). -/
def daysBeforeYear : Nat → Nat
  | 0 => 0
  | y + 1 => daysBeforeYear y + daysInYear y

/-- A `datetime.date` value. -/
@[ext]
structure Date where
  year : Nat
  month : Nat
  day : Nat
deriving DecidableEq

/-- The range check performed by the `datetime.date` constructor. -/
def Date.Valid (d : Date) : Prop :=
  1 ≤ d.year ∧ d.year ≤ 9999 ∧ 1 ≤ d.month ∧ d.month ≤ 12 ∧
    1 ≤ d.day ∧ d.day ≤ daysInMonth (isLeapYear d.year) d.month

instance (d : Date) : Decidable d.Valid := by
  unfold Date.Valid; infer_instance

/-- Constructor `datetime.date(y, m, d)`: `none` models the `ValueError` raised on an
out-of-range triple. -/
def mkDate (y m d : Nat) : Option Date :=
  if Date.Valid ⟨y, m, d⟩ then some ⟨y, m, d⟩ else none

/-- Python `date` comparison `a < b` (lexicographic on year, month, day). -/
def Date.lt (a b : Date) : Bool :=
  if a.year < b.year then true
  else if b.year < a.year then false
  else if a.month < b.month then true
  else if b.month < a.month then false
  else decide (a.day < b.day)

/-- Day ordinal of a date (days since the epoch year 0, month 1, day 0);
differences of ordinals equal Python `(a - b).days`. -/
def Date.ord (d : Date) : Nat :=
  daysBeforeYear d.year + daysBeforeMonth (isLeapYear d.year) d.month + d.day

/-! ## Birthday parsing (`Birthday.value` setter, `src/main.py` lines 125-142)

The setter does nothing when the value is falsy (`None` or the empty string),
leaving the `_value` attribute UNSET, which is distinct from holding `None`:
reading `.value` afterwards raises `AttributeError`.  Otherwise it parses the
string with `datetime.strptime` under the format `%d%m%Y` and, when the parsed date
(with the year taken from the input string) is before today, replaces the year
with `date.today().year + 1`; both the parse and the `replace` can raise
`ValueError`, which the `except` clause turns into the fixed format message. -/

/-- The state of a `Birthday` object: `_value` unset, or set to a date. -/
inductive Birthday where
  | unset : Birthday
  | set : Date → Birthday
deriving DecidableEq

/-- Parser `datetime.strptime` with format `%d%m%Y`, restricted to 8-character inputs (two
digits of day, two of month, four of year), returning `(day, month, year)`
before the range checks.  The flexible widths Python would additionally accept
on shorter strings are not exercised by any claim and are not modelled. -/
def parseDDMMYYYY (s : String) : Option (Nat × Nat × Nat) :=
  match s.data with
  | [d1, d2, m1, m2, y1, y2, y3, y4] =>
    if ([d1, d2, m1, m2, y1, y2, y3, y4].all isAsciiDigit) then
      some (10 * (d1.toNat - '0'.toNat) + (d2.toNat - '0'.toNat),
            10 * (m1.toNat - '0'.toNat) + (m2.toNat - '0'.toNat),
            1000 * (y1.toNat - '0'.toNat) + 100 * (y2.toNat - '0'.toNat)
              + 10 * (y3.toNat - '0'.toNat) + (y4.toNat - '0'.toNat))
    else none
  | _ => none

/-- Constructor `Birthday.__init__` / the `Birthday.value` setter (`src/main.py` 125-142),
with `date.today()` passed explicitly as `today`. -/
def Birthday.make (value : Option String) (today : Date) : Except PyError Birthday :=
  match value with
  | none => .ok .unset
  | some s =>
    if s = "" then .ok .unset
    else
      match parseDDMMYYYY s with
      | none => .error (.valueError "Invalid birthday date format. Use DDMMYYYY.")
      | some (d, m, y) =>
        match mkDate y m d with
        | none => .error (.valueError "Invalid birthday date format. Use DDMMYYYY.")
        | some bd =>
          if Date.lt bd today then
            match mkDate (today.year + 1) m d with
            | none => .error (.valueError "Invalid birthday date format. Use DDMMYYYY.")
            | some bd2 => .ok (.set bd2)
          else .ok (.set bd)

/-! ## Records (`Record`, `src/main.py` lines 43-75) -/

/-- A `Record`: name (the `Name` field performs no validation, so it is kept as
a plain string), phone list and optional `Birthday` object (`None` when the
`birthday` argument was omitted). -/
structure Record where
  name : String
  phones : List Phone
  birthday : Option Birthday
deriving DecidableEq

/-- Method `Record.add_phone` (lines 49-51): validates, then appends. -/
def Record.add_phone (r : Record) (phone : String) : Except PyError Record :=
  match Phone.make (some phone) with
  | .error e => .error e
  | .ok p => .ok { r with phones := r.phones ++ [p] }

/-- Method `Record.edit_phone` (lines 53-55): validates the new phone first, then
assigns `self.phones[index] = phone`, which raises `IndexError` when the index
is out of range (negative Python indices are not exercised by the claims and
are not modelled). -/
def Record.edit_phone (r : Record) (index : Nat) (phone : String) : Except PyError Record :=
  match Phone.make (some phone) with
  | .error e => .error e
  | .ok p =>
    if index < r.phones.length then .ok { r with phones := r.phones.set index p }
    else .error .indexError

/-- Method `Record.delete_phone` (lines 57-58): `del self.phones[index]`. -/
def Record.delete_phone (r : Record) (index : Nat) : Except PyError Record :=
  if index < r.phones.length then .ok { r with phones := r.phones.eraseIdx index }
  else .error .indexError

/-- Method `Record.days_to_birthday` (lines 60-70).  `ok none` is the `return None`
of the no-birthday branch; `error` models the exceptions the body can raise:
`AttributeError` when the `Birthday` object exists but its `_value` was never
set, and `ValueError` when `date(today.year, month, day)` (or the bumped
`date(today.year + 1, month, day)`) is not a constructible date. -/
def Record.days_to_birthday (r : Record) (today : Date) : Except PyError (Option Int) :=
  match r.birthday with
  | none => .ok none
  | some .unset => .error (.attributeError "_value")
  | some (.set bd) =>
    match mkDate today.year bd.month bd.day with
    | none => .error (.valueError "day is out of range for month")
    | some nb =>
      if Date.lt nb today then
        match mkDate (today.year + 1) bd.month bd.day with
        | none => .error (.valueError "day is out of range for month")
        | some nb2 => .ok (some ((nb2.ord : Int) - (today.ord : Int)))
      else .ok (some ((nb.ord : Int) - (today.ord : Int)))

/-! ## The address book (`AddressBook`, `src/main.py` lines 79-122)

`UserDict` keeps keys in insertion order; assigning to an existing key
replaces the value in place, assigning a new key appends.  The mapping is
modelled as an association list in that order. -/

/-- Dictionary lookup `self.data[name]` (first entry with the given key). -/
def dictGet (l : List (String × Record)) (k : String) : Option Record :=
  match l with
  | [] => none
  | (k2, v) :: rest => if k2 = k then some v else dictGet rest k

/-- Dictionary assignment `self.data[k] = v`: replace in place when the key exists, append when it
does not (Python dict insertion-order semantics). -/
def dictSet (l : List (String × Record)) (k : String) (v : Record) : List (String × Record) :=
  match l with
  | [] => [(k, v)]
  | (k2, v2) :: rest => if k2 = k then (k2, v) :: rest else (k2, v2) :: dictSet rest k v

/-- Dictionary deletion `del self.data[k]`: `none` models the `KeyError` on a missing key. -/
def dictDel (l : List (String × Record)) (k : String) : Option (List (String × Record)) :=
  match l with
  | [] => none
  | (k2, v2) :: rest =>
    if k2 = k then some rest
    else match dictDel rest k with
      | none => none
      | some rest2 => some ((k2, v2) :: rest2)

/-- A pickle file: either the exact serialized mapping (`pickle` round-trips
these objects exactly), or bytes that fail to unpickle. -/
inductive PickleFile where
  | valid : List (String × Record) → PickleFile
  | corrupt : PickleFile
deriving DecidableEq

/-- The address book: the underlying ordered `data` mapping. -/
structure AddressBook where
  data : List (String × Record)
deriving DecidableEq

/-- Method `AddressBook.add_contact` (lines 83-84): `self.data[record.name.value] = record`. -/
def AddressBook.add_contact (book : AddressBook) (r : Record) : AddressBook :=
  ⟨dictSet book.data r.name r⟩

/-- Method `AddressBook.edit_contact` (lines 86-89) generalized over the index passed
to `Record.edit_phone`: look the record up (`KeyError` when absent), replace
the phone at the index, re-insert the record.  The source method hard-wires
index 0; see `AddressBook.edit_contact`. -/
def AddressBook.edit_phone_at (book : AddressBook) (name : String) (index : Nat)
    (phone : String) : Except PyError AddressBook :=
  match dictGet book.data name with
  | none => .error .keyError
  | some r =>
    match r.edit_phone index phone with
    | .error e => .error e
    | .ok r2 => .ok (book.add_contact r2)

/-- Method `AddressBook.edit_contact` exactly as written (index fixed to 0). -/
def AddressBook.edit_contact (book : AddressBook) (name : String) (phone : String) :
    Except PyError AddressBook :=
  book.edit_phone_at name 0 phone

/-- Method `AddressBook.delete_contact` (lines 91-92). -/
def AddressBook.delete_contact (book : AddressBook) (name : String) :
    Except PyError AddressBook :=
  match dictDel book.data name with
  | none => .error .keyError
  | some l => .ok ⟨l⟩

/-- ASCII `str.lower` (all inputs in the claims are ASCII). -/
def strLower (s : String) : String := ⟨s.data.map Char.toLower⟩

/-- Whether `needle` starts `hay`. -/
def startsList (needle hay : List Char) : Bool :=
  match needle, hay with
  | [], _ => true
  | _ :: _, [] => false
  | a :: as, b :: bs => a == b && startsList as bs

/-- Python substring test `needle in hay` on character lists. -/
def containsList (needle : List Char) : List Char → Bool
  | [] => startsList needle []
  | c :: rest => startsList needle (c :: rest) || containsList needle rest

/-- The record loop of `AddressBook.search` (lines 100-111).  When the lowered
query is a substring of the lowered name the record is appended; otherwise the
loop over the record phones reads `phone.phone_number` — an attribute a `Phone`
does not have (its accessor is `value`) — so the first phone inspected raises
`AttributeError`. -/
def searchLoop (q : String) : List (String × Record) → Except PyError (List Record)
  | [] => .ok []
  | (_, r) :: rest =>
    if containsList q.data (strLower r.name).data then
      match searchLoop q rest with
      | .error e => .error e
      | .ok l => .ok (r :: l)
    else
      match r.phones with
      | [] => searchLoop q rest
      | _ :: _ => .error (.attributeError "phone_number")

/-- Method `AddressBook.search` (lines 100-111): lowers the query, then scans the
records in store order. -/
def AddressBook.search (book : AddressBook) (query : String) : Except PyError (List Record) :=
  searchLoop (strLower query) book.data

/-- Method `AddressBook.save_to_file` (lines 113-115): `pickle.dump(self.data, file)`,
overwriting the file with an exact serialization of the mapping. -/
def AddressBook.save_to_file (book : AddressBook) : PickleFile :=
  .valid book.data

/-- Method `AddressBook.load_from_file` (lines 117-122): a missing file
(`FileNotFoundError`) is swallowed by `except: pass`, leaving `self.data`
unchanged; a well-formed pickle replaces `self.data`; a corrupt file makes
`pickle.load` raise, and nothing catches that exception here. -/
def AddressBook.load_from_file (book : AddressBook) (file : Option PickleFile) :
    Except PyError AddressBook :=
  match file with
  | none => .ok book
  | some (.valid d) => .ok ⟨d⟩
  | some .corrupt => .error .unpicklingError

/-- The `elif command == "load"` branch of `main()` (lines 269-271): it calls
`load_from_file` and prints a confirmation, with no `try`/`except` around it,
so an exception raised by `load_from_file` escapes the command loop (and
`main()` itself), terminating the process.  An `error` result here therefore
means a process crash. -/
def mainLoadCommand (book : AddressBook) (file : Option PickleFile) :
    Except PyError (AddressBook × String) :=
  match book.load_from_file file with
  | .error e => .error e
  | .ok b => .ok (b, "Address book loaded")

/-! ## Closed-system operation sequences

For the store-level invariant the program is modelled as a state machine over
the book plus the pickle file the program reads and writes.  Each operation is
one of the code paths of `main()` / the `@input_error` handlers:

* `add` is the interactive `add` branch (lines 208-222): it builds
  `Record(Name(name), [Phone(phone)], birthday=Birthday(birthday))` — the
  phone validated first, then the birthday — and upserts it by name;
* `addPhone`, `editPhone`, `deletePhone` look the record up by name
  (`KeyError` when absent) and call the corresponding `Record` method;
* `save` and `load` call `save_to_file` / `load_from_file` on the fixed path.

A failing operation raises; the state is unchanged, as it is in the program
(every mutation happens after all validation in each of these paths). -/

/-- The world state: the in-memory book and the pickle file on disk
(`none` = no file). -/
structure Sys where
  book : AddressBook
  file : Option PickleFile
deriving DecidableEq

/-- One store operation, as invocable from the command loop. -/
inductive Op where
  | add : String → String → Option String → Op
  | addPhone : String → String → Op
  | editPhone : String → Nat → String → Op
  | deletePhone : String → Nat → Op
  | save : Op
  | load : Op
deriving DecidableEq

/-- Run one operation; `error` models a raised exception. -/
def applyOp (today : Date) (sys : Sys) : Op → Except PyError Sys
  | .add name phone bday =>
    match Phone.make (some phone) with
    | .error e => .error e
    | .ok p =>
      match Birthday.make bday today with
      | .error e => .error e
      | .ok b => .ok { sys with book := sys.book.add_contact ⟨name, [p], some b⟩ }
  | .addPhone name phone =>
    match dictGet sys.book.data name with
    | none => .error .keyError
    | some r =>
      match r.add_phone phone with
      | .error e => .error e
      | .ok r2 => .ok { sys with book := ⟨dictSet sys.book.data name r2⟩ }
  | .editPhone name index phone =>
    match dictGet sys.book.data name with
    | none => .error .keyError
    | some r =>
      match r.edit_phone index phone with
      | .error e => .error e
      | .ok r2 => .ok { sys with book := sys.book.add_contact r2 }
  | .deletePhone name index =>
    match dictGet sys.book.data name with
    | none => .error .keyError
    | some r =>
      match r.delete_phone index with
      | .error e => .error e
      | .ok r2 => .ok { sys with book := ⟨dictSet sys.book.data name r2⟩ }
  | .save => .ok { sys with file := some sys.book.save_to_file }
  | .load =>
    match sys.book.load_from_file sys.file with
    | .error e => .error e
    | .ok b => .ok { sys with book := b }

/-- Run a sequence of operations the way the command loop does: an operation
that raises leaves the state as it was and the loop moves on. -/
def runOps (today : Date) (sys : Sys) : List Op → Sys
  | [] => sys
  | op :: ops =>
    match applyOp today sys op with
    | .ok sys2 => runOps today sys2 ops
    | .error _ => runOps today sys ops

/-- The program starts with `AddressBook()` and, before the first `save`, no
pickle file of its own. -/
def initialSys : Sys := ⟨⟨[]⟩, none⟩

/-- A phone value as the validating setter leaves it: `None`, or a string the
regex accepted. -/
def phoneValidated (p : Phone) : Bool :=
  match p.value with
  | none => true
  | some s => phoneMatch s

/-- Every phone of the record passed validation. -/
def Record.phonesValidated (r : Record) : Bool :=
  r.phones.all phoneValidated

/-- Every phone of every record of the mapping passed validation. -/
def bookValidated (l : List (String × Record)) : Bool :=
  l.all fun kv => kv.2.phonesValidated

/-- The file, if readable, only holds validated phones. -/
def fileValidated : Option PickleFile → Bool
  | none => true
  | some .corrupt => true
  | some (.valid d) => bookValidated d

/-- The invariant carried through the state machine. -/
def Sys.Validated (sys : Sys) : Prop :=
  bookValidated sys.book.data = true ∧ fileValidated sys.file = true

/-! ## Concrete sample data used by the scenario theorems -/

/-- The record `add("Alice", "+380501234567")` builds (no birthday given on
the `add_contact` handler path, so `birthday` is Python `None`). -/
def aliceRecord : Record :=
  { name := "Alice", phones := [⟨some "+380501234567"⟩], birthday := none }

/-- A second contact. -/
def bobRecord : Record :=
  { name := "Bob", phones := [⟨some "+380999999999"⟩], birthday := none }

/-- A book with Alice only. -/
def aliceBook : AddressBook := ⟨[("Alice", aliceRecord)]⟩

/-- A book with Alice and Bob, in that insertion order. -/
def twoBook : AddressBook := ⟨[("Alice", aliceRecord), ("Bob", bobRecord)]⟩

/-! ## Lemmas: the phone pattern -/

theorem digitsTail_iff (rest : List Char) :
    digitsTail rest = true ↔
      (rest.length = 9 ∧ rest.all isAsciiDigit = true) ∨
      (∃ ds : List Char, ds.length = 9 ∧ ds.all isAsciiDigit = true ∧ rest = ds ++ ['\n']) := by
  unfold digitsTail
  simp only [Bool.or_eq_true, Bool.and_eq_true, beq_iff_eq]
  constructor
  · rintro (⟨h9, hall⟩ | ⟨⟨h10, htake⟩, hdrop⟩)
    · exact Or.inl ⟨h9, hall⟩
    · refine Or.inr ⟨rest.take 9, ?_, htake, ?_⟩
      · simp [List.length_take, h10]
      · conv_lhs => rw [← List.take_append_drop 9 rest]
        rw [hdrop]
  · rintro (⟨h9, hall⟩ | ⟨ds, h9, hall, hrest⟩)
    · exact Or.inl ⟨h9, hall⟩
    · subst hrest
      refine Or.inr ⟨⟨?_, ?_⟩, ?_⟩
      · simp [h9]
      · rw [← h9, List.take_left]; exact hall
      · rw [← h9, List.drop_left]

theorem tailMatch_iff (cs : List Char) :
    tailMatch cs = true ↔
      ∃ ds : List Char, ds.length = 9 ∧ ds.all isAsciiDigit = true ∧
        (cs = '3' :: '8' :: '0' :: ds ∨ cs = '3' :: '8' :: '0' :: (ds ++ ['\n'])) := by
  unfold tailMatch
  simp only [Bool.and_eq_true, beq_iff_eq]
  constructor
  · rintro ⟨htake, hdig⟩
    have hcs : cs = '3' :: '8' :: '0' :: cs.drop 3 := by
      conv_lhs => rw [← List.take_append_drop 3 cs]
      rw [htake]; rfl
    rcases (digitsTail_iff (cs.drop 3)).mp hdig with ⟨h9, hall⟩ | ⟨ds, h9, hall, hrest⟩
    · exact ⟨cs.drop 3, h9, hall, Or.inl hcs⟩
    · exact ⟨ds, h9, hall, Or.inr (by rw [hcs, hrest])⟩
  · rintro ⟨ds, h9, hall, hcs | hcs⟩ <;> subst hcs <;>
      refine ⟨rfl, (digitsTail_iff _).mpr ?_⟩
    · exact Or.inl ⟨h9, hall⟩
    · exact Or.inr ⟨ds, h9, hall, rfl⟩

theorem phoneMatch_iff (s : String) :
    phoneMatch s = true ↔
      ∃ ds : List Char, ds.length = 9 ∧ ds.all isAsciiDigit = true ∧
        (s.data = '3' :: '8' :: '0' :: ds ∨
         s.data = '+' :: '3' :: '8' :: '0' :: ds ∨
         s.data = '3' :: '8' :: '0' :: (ds ++ ['\n']) ∨
         s.data = '+' :: '3' :: '8' :: '0' :: (ds ++ ['\n'])) := by
  unfold phoneMatch
  cases hdata : s.data with
  | nil =>
    constructor
    · intro h; exact absurd h (by decide)
    · rintro ⟨ds, _, _, h | h | h | h⟩ <;> simp at h
  | cons c t =>
    by_cases hc : c = '+'
    · subst hc
      simp only [List.head?_cons, List.tail_cons]
      rw [if_pos (show ((some '+' : Option Char) == some '+') = true by decide)]
      rw [tailMatch_iff]
      constructor
      · rintro ⟨ds, h9, hall, ht | ht⟩
        · exact ⟨ds, h9, hall, Or.inr (Or.inl (by rw [ht]))⟩
        · exact ⟨ds, h9, hall, Or.inr (Or.inr (Or.inr (by rw [ht])))⟩
      · rintro ⟨ds, h9, hall, h | h | h | h⟩
        · injection h with h1 h2; exact absurd h1 (by decide)
        · injection h with h1 h2; exact ⟨ds, h9, hall, Or.inl h2⟩
        · injection h with h1 h2; exact absurd h1 (by decide)
        · injection h with h1 h2; exact ⟨ds, h9, hall, Or.inr h2⟩
    · simp only [List.head?_cons]
      rw [if_neg (show ¬((some c == some '+') = true) by simp [hc])]
      rw [tailMatch_iff]
      constructor
      · rintro ⟨ds, h9, hall, ht | ht⟩
        · exact ⟨ds, h9, hall, Or.inl ht⟩
        · exact ⟨ds, h9, hall, Or.inr (Or.inr (Or.inl ht))⟩
      · rintro ⟨ds, h9, hall, h | h | h | h⟩
        · exact ⟨ds, h9, hall, Or.inl h⟩
        · injection h with h1 h2; exact absurd h1 hc
        · exact ⟨ds, h9, hall, Or.inr h⟩
        · injection h with h1 h2; exact absurd h1 hc

/-! ## C1: which strings the phone setter accepts -/

/-- Claim C1 (amended).  `Phone` construction (and hence `add`) succeeds exactly
for the strings matched by `re.match` with the pattern `^\+?380\d{9}$`: an OPTIONAL
leading `'+'`, then the literal `380`, then exactly nine digits, optionally
followed by one final newline (the `$` anchor); every other string fails with
`ValueError`.  The format of the claim — a mandatory `+380` prefix — is one of the
four accepted shapes, so the phones field can also hold values such as
`380501234567` without the plus sign. -/
theorem phone_format_characterization (s : String) :
    (∃ p : Phone, Phone.make (some s) = .ok p) ↔
      ∃ ds : List Char, ds.length = 9 ∧ ds.all isAsciiDigit = true ∧
        (s.data = '3' :: '8' :: '0' :: ds ∨
         s.data = '+' :: '3' :: '8' :: '0' :: ds ∨
         s.data = '3' :: '8' :: '0' :: (ds ++ ['\n']) ∨
         s.data = '+' :: '3' :: '8' :: '0' :: (ds ++ ['\n'])) := by
  constructor
  · rintro ⟨p, hp⟩
    by_cases h : phoneMatch s = true
    · exact (phoneMatch_iff s).mp h
    · rw [Bool.not_eq_true] at h
      simp only [Phone.make, h, Bool.false_eq_true, if_false] at hp
      cases hp
  · intro h
    refine ⟨⟨some s⟩, ?_⟩
    simp only [Phone.make]
    rw [if_pos ((phoneMatch_iff s).mpr h)]

/-- Claim C1 (counterexample to the claim as stated).  The string
`"380501234567"` does not have the claimed mandatory `+380` prefix (its first
character is not `'+'`), yet the setter accepts it, so "for every other input
string, it fails" is false. -/
theorem phone_no_plus_accepted :
    Phone.make (some "380501234567") = .ok ⟨some "380501234567"⟩ ∧
      "380501234567".data.head? ≠ some '+' := by
  exact ⟨by decide, by decide⟩

/-! ## Lemmas: calendar arithmetic -/

theorem daysBeforeMonth_succ (leap : Bool) (m : Nat) :
    daysBeforeMonth leap (m + 1) = daysBeforeMonth leap m + daysInMonth leap m := rfl

theorem daysBeforeMonth_mono (leap : Bool) {m1 m2 : Nat} (h : m1 ≤ m2) :
    daysBeforeMonth leap m1 ≤ daysBeforeMonth leap m2 := by
  induction m2 with
  | zero => interval_cases m1; exact Nat.le_refl _
  | succ n ih =>
    rcases Nat.lt_or_ge m1 (n + 1) with h2 | h2
    · exact le_trans (ih (Nat.lt_succ_iff.mp h2)) (by rw [daysBeforeMonth_succ]; omega)
    · have h3 : m1 = n + 1 := le_antisymm h h2
      subst h3; exact Nat.le_refl _

theorem monthOrd_le_daysInYear (leap : Bool) {m d : Nat} (hm2 : m ≤ 12)
    (hd : d ≤ daysInMonth leap m) :
    daysBeforeMonth leap m + d ≤ (if leap then 366 else 365) := by
  have h1 : daysBeforeMonth leap m + d ≤ daysBeforeMonth leap (m + 1) := by
    rw [daysBeforeMonth_succ]; omega
  have h2 : daysBeforeMonth leap (m + 1) ≤ daysBeforeMonth leap 13 :=
    daysBeforeMonth_mono leap (by omega)
  have h3 : daysBeforeMonth leap 13 = (if leap then 366 else 365) := by
    cases leap <;> decide
  exact le_trans (le_trans h1 h2) (le_of_eq h3)

theorem dbm_false_le_true {m : Nat} (hm : m ≤ 13) :
    daysBeforeMonth false m ≤ daysBeforeMonth true m := by
  interval_cases m <;> decide

theorem dbm_true_le_false_add_one {m : Nat} (hm : m ≤ 13) :
    daysBeforeMonth true m ≤ daysBeforeMonth false m + 1 := by
  interval_cases m <;> decide

theorem isLeapYear_succ {y : Nat} (h : isLeapYear y = true) : isLeapYear (y + 1) = false := by
  unfold isLeapYear at h ⊢
  have h4 : y % 4 = 0 := by
    have h1 := (Bool.and_eq_true _ _).mp h |>.1
    simpa using h1
  have h5 : (y + 1) % 4 = 1 := by omega
  rw [h5]
  simp

theorem daysBeforeYear_succ (y : Nat) :
    daysBeforeYear (y + 1) = daysBeforeYear y + daysInYear y := rfl

theorem daysBeforeYear_mono {y1 y2 : Nat} (h : y1 ≤ y2) :
    daysBeforeYear y1 ≤ daysBeforeYear y2 := by
  induction y2 with
  | zero => interval_cases y1; exact Nat.le_refl _
  | succ n ih =>
    rcases Nat.lt_or_ge y1 (n + 1) with h2 | h2
    · exact le_trans (ih (Nat.lt_succ_iff.mp h2)) (by rw [daysBeforeYear_succ]; omega)
    · have h3 : y1 = n + 1 := le_antisymm h h2
      subst h3; exact Nat.le_refl _

theorem daysInYear_ge (y : Nat) : 365 ≤ daysInYear y := by
  unfold daysInYear; split <;> omega

theorem daysInYear_le (y : Nat) : daysInYear y ≤ 366 := by
  unfold daysInYear; split <;> omega

theorem date_lt_iff (a b : Date) :
    Date.lt a b = true ↔
      a.year < b.year ∨ (a.year = b.year ∧
        (a.month < b.month ∨ (a.month = b.month ∧ a.day < b.day))) := by
  unfold Date.lt
  split_ifs with h1 h2 h3 h4 <;> simp <;> omega

theorem date_not_lt {a b : Date} (h : Date.lt a b = false) :
    a = b ∨ Date.lt b a = true := by
  have h2 : ¬(Date.lt a b = true) := by simp [h]
  rw [date_lt_iff] at h2
  by_cases h3 : a.year = b.year ∧ a.month = b.month ∧ a.day = b.day
  · left; ext
    · exact h3.1
    · exact h3.2.1
    · exact h3.2.2
  · right; rw [date_lt_iff]; omega

theorem monthOrd_le_daysInYear' {y m d : Nat} (hm2 : m ≤ 12)
    (hd : d ≤ daysInMonth (isLeapYear y) m) :
    daysBeforeMonth (isLeapYear y) m + d ≤ daysInYear y := by
  have h1 := monthOrd_le_daysInYear (isLeapYear y) hm2 hd
  unfold daysInYear
  exact h1

theorem ord_lt_ord {a b : Date} (ha : a.Valid) (hb : b.Valid) (h : Date.lt a b = true) :
    a.ord < b.ord := by
  obtain ⟨ha1, ha2, ha3, ha4, ha5, ha6⟩ := ha
  obtain ⟨hb1, hb2, hb3, hb4, hb5, hb6⟩ := hb
  rw [date_lt_iff] at h
  unfold Date.ord
  rcases h with h | ⟨hy, h⟩
  · have e1 : daysBeforeMonth (isLeapYear a.year) a.month + a.day ≤ daysInYear a.year :=
      monthOrd_le_daysInYear' ha4 ha6
    have e2 : daysBeforeYear a.year + daysInYear a.year ≤ daysBeforeYear b.year := by
      rw [← daysBeforeYear_succ]; exact daysBeforeYear_mono (by omega)
    omega
  · rw [hy] at ha6 ⊢
    rcases h with h | ⟨hm, hd⟩
    · have e1 : daysBeforeMonth (isLeapYear b.year) a.month + a.day ≤
          daysBeforeMonth (isLeapYear b.year) (a.month + 1) := by
        rw [daysBeforeMonth_succ]; omega
      have e2 : daysBeforeMonth (isLeapYear b.year) (a.month + 1) ≤
          daysBeforeMonth (isLeapYear b.year) b.month :=
        daysBeforeMonth_mono _ (by omega)
      omega
    · rw [hm]; omega

theorem ord_le_ord_of_not_lt {a b : Date} (ha : a.Valid) (hb : b.Valid)
    (h : Date.lt b a = false) : a.ord ≤ b.ord := by
  rcases date_not_lt h with heq | hlt
  · exact le_of_eq (by rw [heq])
  · exact le_of_lt (ord_lt_ord ha hb hlt)

theorem ord_next_year_le {y m d : Nat} (hm2 : m ≤ 12) :
    Date.ord ⟨y + 1, m, d⟩ ≤ Date.ord ⟨y, m, d⟩ + 366 := by
  unfold Date.ord
  simp only
  rw [daysBeforeYear_succ]
  cases hL : isLeapYear y with
  | true =>
    rw [isLeapYear_succ hL]
    have h2 : daysBeforeMonth false m ≤ daysBeforeMonth true m := dbm_false_le_true (by omega)
    have h3 : daysInYear y = 366 := by unfold daysInYear; rw [hL]; rfl
    omega
  | false =>
    have h3 : daysInYear y = 365 := by unfold daysInYear; rw [hL]; rfl
    cases hL2 : isLeapYear (y + 1) with
    | true =>
      have h2 := dbm_true_le_false_add_one (m := m) (by omega)
      omega
    | false => omega

theorem day_le_daysInMonth_transfer {m d : Nat} (hm1 : 1 ≤ m) (hm2 : m ≤ 12)
    (l1 l2 : Bool) (hd : d ≤ daysInMonth l1 m) (hfeb : ¬(m = 2 ∧ d = 29)) :
    d ≤ daysInMonth l2 m := by
  interval_cases m <;> cases l1 <;> cases l2 <;> simp [daysInMonth] at * <;> omega

/-! ## C7: range of `days_to_birthday` -/

/-- Claim C7 (amended).  For a stored birthday whose month/day is not
February 29, and any valid `today` with `today.year ≤ 9998`,
`days_to_birthday` returns an integer `k` with `0 ≤ k < 366`.  The claim as
stated — "for every valid stored birthday and every today" — fails for
February 29 birthdays (see the counterexample), because the method rebuilds
the birthday via `date(today.year, month, day)`, which raises `ValueError`
when that year has no February 29; a `today` in year 9999 likewise makes the
bumped `date(10000, ...)` unconstructible. -/
theorem days_to_birthday_bounds (r : Record) (bd today : Date)
    (hb : r.birthday = some (.set bd))
    (hbd : bd.Valid)
    (ht : today.Valid)
    (hyr : today.year ≤ 9998)
    (hfeb : ¬(bd.month = 2 ∧ bd.day = 29)) :
    ∃ k : Int, r.days_to_birthday today = .ok (some k) ∧ 0 ≤ k ∧ k < 366 := by
  obtain ⟨hb1, hb2, hb3, hb4, hb5, hb6⟩ := hbd
  obtain ⟨ht1, ht2, ht3, ht4, ht5, ht6⟩ := ht
  have hd1 : Date.Valid ⟨today.year, bd.month, bd.day⟩ :=
    ⟨ht1, ht2, hb3, hb4, hb5, day_le_daysInMonth_transfer hb3 hb4 _ _ hb6 hfeb⟩
  have hmk1 : mkDate today.year bd.month bd.day = some ⟨today.year, bd.month, bd.day⟩ := by
    unfold mkDate; rw [if_pos hd1]
  have htv : Date.Valid today := ⟨ht1, ht2, ht3, ht4, ht5, ht6⟩
  unfold Record.days_to_birthday
  rw [hb]
  dsimp only
  rw [hmk1]
  dsimp only
  cases hlt : Date.lt ⟨today.year, bd.month, bd.day⟩ today with
  | false =>
    rw [if_neg (by simp)]
    refine ⟨_, rfl, ?_, ?_⟩
    · have e1 : today.ord ≤ Date.ord ⟨today.year, bd.month, bd.day⟩ :=
        ord_le_ord_of_not_lt htv hd1 hlt
      omega
    · have e1 : Date.ord ⟨today.year, bd.month, bd.day⟩ ≤
          daysBeforeYear today.year + daysInYear today.year := by
        unfold Date.ord
        dsimp only
        have e2 := monthOrd_le_daysInYear' (y := today.year) hb4
          (day_le_daysInMonth_transfer hb3 hb4 _ _ hb6 hfeb)
        omega
      have e3 : daysBeforeYear today.year + 1 ≤ today.ord := by
        unfold Date.ord; omega
      have e4 : daysInYear today.year ≤ 366 := daysInYear_le _
      omega
  | true =>
    have hd2 : Date.Valid ⟨today.year + 1, bd.month, bd.day⟩ :=
      ⟨show 1 ≤ today.year + 1 by omega, show today.year + 1 ≤ 9999 by omega, hb3, hb4, hb5,
        day_le_daysInMonth_transfer hb3 hb4 _ _ hb6 hfeb⟩
    have hmk2 : mkDate (today.year + 1) bd.month bd.day =
        some ⟨today.year + 1, bd.month, bd.day⟩ := by
      unfold mkDate; rw [if_pos hd2]
    rw [if_pos rfl, hmk2]
    dsimp only
    refine ⟨_, rfl, ?_, ?_⟩
    · have hlt2 : Date.lt today ⟨today.year + 1, bd.month, bd.day⟩ = true := by
        rw [date_lt_iff]; exact Or.inl (Nat.lt_succ_self _)
      have e1 : today.ord < Date.ord ⟨today.year + 1, bd.month, bd.day⟩ :=
        ord_lt_ord htv hd2 hlt2
      omega
    · have e1 : Date.ord ⟨today.year + 1, bd.month, bd.day⟩ ≤
          Date.ord ⟨today.year, bd.month, bd.day⟩ + 366 :=
        ord_next_year_le hb4
      have e2 : Date.ord ⟨today.year, bd.month, bd.day⟩ < today.ord :=
        ord_lt_ord hd1 htv hlt
      omega

/-- Claim C7 (witness).  A concrete non-February-29 birthday and a concrete
today at which the amended bound theorem applies. -/
theorem days_to_birthday_bounds_witness :
    ∃ k : Int,
      Record.days_to_birthday ⟨"Olha", [], some (.set ⟨2030, 6, 15⟩)⟩ ⟨2026, 3, 10⟩ =
          .ok (some k) ∧ 0 ≤ k ∧ k < 366 :=
  days_to_birthday_bounds ⟨"Olha", [], some (.set ⟨2030, 6, 15⟩)⟩ ⟨2030, 6, 15⟩ ⟨2026, 3, 10⟩
    rfl (by decide) (by decide) (by decide) (by decide)

/-- Claim C7 (counterexample to the claim as stated).  `2032-02-29` is a valid
stored birthday (2032 is a leap year) and `2033-01-15` a valid today, but
`days_to_birthday` then raises `ValueError` from `date(2033, 2, 29)` instead
of returning a day count in `[0, 366)`. -/
theorem days_to_birthday_feb29_error :
    Record.days_to_birthday ⟨"Olha", [], some (.set ⟨2032, 2, 29⟩)⟩ ⟨2033, 1, 15⟩ =
        .error (.valueError "day is out of range for month") ∧
      Date.Valid ⟨2032, 2, 29⟩ ∧ Date.Valid ⟨2033, 1, 15⟩ :=
  ⟨by decide, by decide, by decide⟩

/-! ## C2: the year stored for a parsed birthday -/

theorem mkDate_some {y m d : Nat} {pd : Date} (h : mkDate y m d = some pd) :
    pd = ⟨y, m, d⟩ := by
  unfold mkDate at h
  split at h
  · injection h with h2; exact h2.symm
  · cases h

/-- Claim C2 (amended).  For a `DDMMYYYY` input parsing to day `d`, month `m`,
year `y`, the year of the stored birthday is `today.year + 1` exactly when the FULL
parsed date `(y, m, d)` — with the year taken from the input string, not the
current year — is before today, and is the own year `y` of the input otherwise.
Whether the month/day has already occurred this year is not what the code
tests: a past-year birthday whose month/day is still ahead this year is
nevertheless bumped to `today.year + 1`, and an input with a future year keeps
that future year. -/
theorem birthday_stored_year (s : String) (d m y : Nat) (today : Date) (bd : Date)
    (hp : parseDDMMYYYY s = some (d, m, y))
    (hmk : Birthday.make (some s) today = .ok (.set bd)) :
    bd.year = if Date.lt ⟨y, m, d⟩ today then today.year + 1 else y := by
  have hs : ¬(s = "") := by
    intro he
    rw [he] at hp
    have h0 : parseDDMMYYYY "" = none := rfl
    rw [h0] at hp
    cases hp
  simp only [Birthday.make] at hmk
  rw [if_neg hs, hp] at hmk
  dsimp only at hmk
  cases hmk2 : mkDate y m d with
  | none => rw [hmk2] at hmk; cases hmk
  | some pd =>
    rw [hmk2] at hmk
    dsimp only at hmk
    have hpd := mkDate_some hmk2
    subst hpd
    cases hlt : Date.lt ⟨y, m, d⟩ today with
    | true =>
      rw [hlt] at hmk
      rw [if_pos rfl] at hmk
      rw [if_pos rfl]
      cases hmk3 : mkDate (today.year + 1) m d with
      | none => rw [hmk3] at hmk; cases hmk
      | some bd2 =>
        rw [hmk3] at hmk
        injection hmk with h2
        injection h2 with h3
        rw [← h3, mkDate_some hmk3]
    | false =>
      rw [hlt] at hmk
      rw [if_neg (by simp)] at hmk
      rw [if_neg (by simp)]
      injection hmk with h2
      injection h2 with h3
      rw [← h3]

/-- Claim C2 (witness).  The theorem applied to the input `"15062020"` and the
run date 2026-01-01: the parsed date 2020-06-15 is before today, so the
stored year is 2027. -/
theorem birthday_stored_year_witness :
    (Date.mk 2027 6 15).year =
      if Date.lt ⟨2020, 6, 15⟩ ⟨2026, 1, 1⟩ then (Date.mk 2026 1 1).year + 1 else 2020 :=
  birthday_stored_year "15062020" 15 6 2020 ⟨2026, 1, 1⟩ ⟨2027, 6, 15⟩ (by decide) (by decide)

/-- Claim C2 (counterexample to the claim as stated).  On run date 2026-01-01
the month/day June 15 has NOT yet occurred this year
(`date(2026, 6, 15) < today` is false), so the claim requires the stored year
to be the current year 2026; the code stores 2027 (= current year + 1),
because it compares the parsed date 2020-06-15 — with the year of birth —
against today. -/
theorem birthday_year_not_current :
    Birthday.make (some "15062020") ⟨2026, 1, 1⟩ = .ok (.set ⟨2027, 6, 15⟩) ∧
      Date.lt ⟨2026, 6, 15⟩ ⟨2026, 1, 1⟩ = false ∧ 2027 ≠ 2026 :=
  ⟨by decide, by decide, by decide⟩

/-! ## C3: `search` crashes on the phone branch -/

/-- Claim C3 (code bug, evaluated at the own scenario of the spec).  After
`add("Alice", "+380501234567")`, searching for `"380501"` should return the
Alice record; instead the phone loop of `search` reads
`phone.phone_number` — an attribute `Phone` does not define (the value lives
in `phone.value`) — and raises `AttributeError` on the first phone of the
first record whose name does not contain the query. -/
theorem search_attribute_error :
    aliceBook.search "380501" = .error (.attributeError "phone_number") := by decide

/-! ## C8: missing birthday -/

/-- Claim C8 (code bug, evaluated at the failing input).  The interactive `add`
path always wraps the birthday argument in a `Birthday` object, so omitting
the birthday yields `Birthday(None)`; the setter then skips the assignment and
leaves `_value` unset (first conjunct).  On such a record
`days_to_birthday` evaluates `self.birthday.value`, whose getter reads the
missing `_value` attribute and raises `AttributeError` instead of returning
the `None` sentinel (second conjunct).  Only a record whose `birthday`
attribute is Python `None` — as built by the non-interactive `add_contact`
handler — reaches the sentinel branch (third conjunct). -/
theorem days_to_birthday_unset_attribute_error :
    Birthday.make none ⟨2026, 1, 1⟩ = .ok .unset ∧
      Record.days_to_birthday ⟨"Bob", [⟨some "+380501234567"⟩], some .unset⟩ ⟨2026, 1, 1⟩ =
        .error (.attributeError "_value") ∧
      Record.days_to_birthday ⟨"Bob", [⟨some "+380501234567"⟩], none⟩ ⟨2026, 1, 1⟩ =
        .ok none :=
  ⟨rfl, rfl, rfl⟩

/-! ## C4: pickle round-trip -/

/-- Claim C4 (confirmed).  Loading the file written by `save_to_file` restores a
book equal to the saved one: `pickle` serializes the `data` mapping exactly,
so every name, every phone string (in order) and every birthday date — and
even the insertion order of the contacts — come back unchanged, whatever that
order was. -/
theorem save_load_roundtrip (book : AddressBook) :
    book.load_from_file (some book.save_to_file) = .ok book := rfl

/-! ## C5: loading a missing file -/

/-- Claim C5 (amended).  When the file does not exist, `load_from_file` catches
`FileNotFoundError` with `pass`: no error is signalled and the store is left
exactly as it was — so a freshly constructed (empty) store remains empty, but
the method does not RETURN an empty store in general. -/
theorem load_missing_file_keeps_store (book : AddressBook) :
    book.load_from_file none = .ok book := rfl

/-- Claim C5 (counterexample to the claim as stated).  Loading a nonexistent
file into a store that already holds Alice signals no error but yields the
same nonempty store, not an empty one. -/
theorem load_missing_file_not_empty :
    aliceBook.load_from_file none = .ok aliceBook ∧ aliceBook.data ≠ [] :=
  ⟨rfl, by decide⟩

/-! ## C9: loading a corrupt file -/

/-- Claim C9 (amended).  A file that exists but fails to unpickle makes
`pickle.load` raise; `load_from_file` only catches `FileNotFoundError`, so the
error is surfaced to the caller rather than silently ignored (first
conjunct) — but the `load` command branch of `main()` has no handler either,
so the exception escapes the command loop and the process crashes (second
conjunct: the command-level result is the uncaught error). -/
theorem load_corrupt_surfaced (book : AddressBook) :
    book.load_from_file (some .corrupt) = .error .unpicklingError ∧
      mainLoadCommand book (some .corrupt) = .error .unpicklingError :=
  ⟨rfl, rfl⟩

/-- Claim C9 (counterexample to the claim as stated).  At the command-handling
boundary the unpickling error of a corrupt file is NOT recovered: the `load`
command on a corrupt file ends in an uncaught exception (a process crash),
refuting "neither silently ignored nor allowed to crash the process". -/
theorem load_corrupt_crash :
    mainLoadCommand ⟨[]⟩ (some .corrupt) = .error .unpicklingError := rfl

/-! ## Lemmas: the phone-validation invariant -/

theorem Phone.make_validated {v : Option String} {p : Phone} (h : Phone.make v = .ok p) :
    phoneValidated p = true := by
  cases v with
  | none => injection h with h2; rw [← h2]; rfl
  | some s =>
    simp only [Phone.make] at h
    split at h
    · injection h with h2
      rw [← h2]
      unfold phoneValidated
      assumption
    · cases h

theorem all_set_of_all {α : Type} (f : α → Bool) :
    ∀ (l : List α) (i : Nat) (a : α), l.all f = true → f a = true → (l.set i a).all f = true := by
  intro l
  induction l with
  | nil => intro i a _ _; rfl
  | cons b bs ih =>
    intro i a hall ha
    rw [List.all_cons, Bool.and_eq_true] at hall
    cases i with
    | zero => rw [List.set, List.all_cons, Bool.and_eq_true]; exact ⟨ha, hall.2⟩
    | succ n => rw [List.set, List.all_cons, Bool.and_eq_true]; exact ⟨hall.1, ih n a hall.2 ha⟩

theorem all_eraseIdx_of_all {α : Type} (f : α → Bool) :
    ∀ (l : List α) (i : Nat), l.all f = true → (l.eraseIdx i).all f = true := by
  intro l
  induction l with
  | nil => intro i _; rfl
  | cons b bs ih =>
    intro i hall
    rw [List.all_cons, Bool.and_eq_true] at hall
    cases i with
    | zero => exact hall.2
    | succ n => rw [List.eraseIdx, List.all_cons, Bool.and_eq_true]; exact ⟨hall.1, ih n hall.2⟩

theorem bookValidated_dictSet (k : String) (r : Record) (hr : r.phonesValidated = true) :
    ∀ l : List (String × Record), bookValidated l = true →
      bookValidated (dictSet l k r) = true := by
  intro l
  induction l with
  | nil =>
    intro _
    unfold dictSet bookValidated
    rw [List.all_cons, Bool.and_eq_true]
    exact ⟨hr, rfl⟩
  | cons kv rest ih =>
    obtain ⟨k2, v2⟩ := kv
    intro hall
    unfold bookValidated at hall
    rw [List.all_cons, Bool.and_eq_true] at hall
    unfold dictSet
    by_cases h : k2 = k
    · rw [if_pos h]
      unfold bookValidated
      rw [List.all_cons, Bool.and_eq_true]
      exact ⟨hr, hall.2⟩
    · rw [if_neg h]
      unfold bookValidated
      rw [List.all_cons, Bool.and_eq_true]
      exact ⟨hall.1, ih hall.2⟩

theorem bookValidated_dictGet (k : String) :
    ∀ (l : List (String × Record)) (r : Record), bookValidated l = true →
      dictGet l k = some r → r.phonesValidated = true := by
  intro l
  induction l with
  | nil => intro r _ h; cases h
  | cons kv rest ih =>
    obtain ⟨k2, v2⟩ := kv
    intro r hall hget
    unfold bookValidated at hall
    rw [List.all_cons, Bool.and_eq_true] at hall
    unfold dictGet at hget
    by_cases h : k2 = k
    · rw [if_pos h] at hget; injection hget with h2; rw [← h2]; exact hall.1
    · rw [if_neg h] at hget; exact ih r hall.2 hget

theorem add_phone_validated {r r2 : Record} {phone : String}
    (hr : r.phonesValidated = true) (h : r.add_phone phone = .ok r2) :
    r2.phonesValidated = true := by
  unfold Record.add_phone at h
  cases hp : Phone.make (some phone) with
  | error e => rw [hp] at h; cases h
  | ok p =>
    rw [hp] at h
    injection h with h2
    rw [← h2]
    unfold Record.phonesValidated at hr ⊢
    dsimp only
    rw [List.all_append, Bool.and_eq_true]
    refine ⟨hr, ?_⟩
    rw [List.all_cons, Bool.and_eq_true]
    exact ⟨Phone.make_validated hp, rfl⟩

theorem edit_phone_validated {r r2 : Record} {i : Nat} {phone : String}
    (hr : r.phonesValidated = true) (h : r.edit_phone i phone = .ok r2) :
    r2.phonesValidated = true := by
  unfold Record.edit_phone at h
  cases hp : Phone.make (some phone) with
  | error e => rw [hp] at h; cases h
  | ok p =>
    rw [hp] at h
    dsimp only at h
    by_cases hi : i < r.phones.length
    · rw [if_pos hi] at h
      injection h with h2
      rw [← h2]
      unfold Record.phonesValidated at hr ⊢
      dsimp only
      exact all_set_of_all _ _ _ _ hr (Phone.make_validated hp)
    · rw [if_neg hi] at h
      cases h

theorem delete_phone_validated {r r2 : Record} {i : Nat}
    (hr : r.phonesValidated = true) (h : r.delete_phone i = .ok r2) :
    r2.phonesValidated = true := by
  unfold Record.delete_phone at h
  by_cases hi : i < r.phones.length
  · rw [if_pos hi] at h
    injection h with h2
    rw [← h2]
    unfold Record.phonesValidated at hr ⊢
    dsimp only
    exact all_eraseIdx_of_all _ _ _ hr
  · rw [if_neg hi] at h
    cases h

theorem applyOp_validated {today : Date} {sys sys2 : Sys} {op : Op}
    (h : sys.Validated) (ha : applyOp today sys op = .ok sys2) : sys2.Validated := by
  obtain ⟨hbook, hfile⟩ := h
  cases op with
  | add name phone bday =>
    simp only [applyOp] at ha
    cases hp : Phone.make (some phone) with
    | error e => rw [hp] at ha; cases ha
    | ok p =>
      rw [hp] at ha
      cases hbd : Birthday.make bday today with
      | error e => rw [hbd] at ha; cases ha
      | ok b =>
        rw [hbd] at ha
        injection ha with ha2
        rw [← ha2]
        refine ⟨?_, hfile⟩
        unfold AddressBook.add_contact
        dsimp only
        apply bookValidated_dictSet _ _ ?_ _ hbook
        unfold Record.phonesValidated
        dsimp only
        rw [List.all_cons, Bool.and_eq_true]
        exact ⟨Phone.make_validated hp, rfl⟩
  | addPhone name phone =>
    simp only [applyOp] at ha
    cases hg : dictGet sys.book.data name with
    | none => rw [hg] at ha; cases ha
    | some r =>
      rw [hg] at ha
      dsimp only at ha
      cases hap : r.add_phone phone with
      | error e => rw [hap] at ha; cases ha
      | ok r2 =>
        rw [hap] at ha
        injection ha with ha2
        rw [← ha2]
        refine ⟨?_, hfile⟩
        exact bookValidated_dictSet _ _
          (add_phone_validated (bookValidated_dictGet _ _ _ hbook hg) hap) _ hbook
  | editPhone name i phone =>
    simp only [applyOp] at ha
    cases hg : dictGet sys.book.data name with
    | none => rw [hg] at ha; cases ha
    | some r =>
      rw [hg] at ha
      dsimp only at ha
      cases hep : r.edit_phone i phone with
      | error e => rw [hep] at ha; cases ha
      | ok r2 =>
        rw [hep] at ha
        injection ha with ha2
        rw [← ha2]
        refine ⟨?_, hfile⟩
        unfold AddressBook.add_contact
        dsimp only
        exact bookValidated_dictSet _ _
          (edit_phone_validated (bookValidated_dictGet _ _ _ hbook hg) hep) _ hbook
  | deletePhone name i =>
    simp only [applyOp] at ha
    cases hg : dictGet sys.book.data name with
    | none => rw [hg] at ha; cases ha
    | some r =>
      rw [hg] at ha
      dsimp only at ha
      cases hdp : r.delete_phone i with
      | error e => rw [hdp] at ha; cases ha
      | ok r2 =>
        rw [hdp] at ha
        injection ha with ha2
        rw [← ha2]
        refine ⟨?_, hfile⟩
        exact bookValidated_dictSet _ _
          (delete_phone_validated (bookValidated_dictGet _ _ _ hbook hg) hdp) _ hbook
  | save =>
    simp only [applyOp] at ha
    injection ha with ha2
    rw [← ha2]
    exact ⟨hbook, hbook⟩
  | load =>
    simp only [applyOp] at ha
    unfold AddressBook.load_from_file at ha
    cases hf : sys.file with
    | none =>
      rw [hf] at ha
      injection ha with ha2
      rw [← ha2]
      rw [hf] at hfile
      exact ⟨hbook, hfile⟩
    | some pf =>
      cases pf with
      | corrupt => rw [hf] at ha; cases ha
      | valid d =>
        rw [hf] at ha
        injection ha with ha2
        rw [← ha2]
        rw [hf] at hfile
        exact ⟨hfile, hfile⟩

theorem runOps_validated (today : Date) :
    ∀ (ops : List Op) (sys : Sys), sys.Validated → (runOps today sys ops).Validated := by
  intro ops
  induction ops with
  | nil => intro sys h; exact h
  | cons op rest ih =>
    intro sys h
    unfold runOps
    cases ha : applyOp today sys op with
    | ok sys2 => exact ih sys2 (applyOp_validated h ha)
    | error e => exact ih sys h

/-! ## C6: every stored phone passed validation -/

/-- Claim C6 (confirmed).  Starting from the fresh program state and running any
sequence of store operations — `add`, `add_phone`, `edit_phone`,
`delete_phone`, plus `save`/`load` of the pickle file — every phone of every
contact holds a value the `+380` setter accepted (every phone object is built
by `Phone(...)`, whose setter raises before an invalid value can be stored,
and `load` only reads back a previously saved mapping). -/
theorem phones_always_validated (today : Date) (ops : List Op) :
    bookValidated (runOps today initialSys ops).book.data = true :=
  (runOps_validated today ops initialSys ⟨rfl, rfl⟩).1

/-! ## Lemmas: dictionary update -/

theorem dictGet_dictSet_self (k : String) (r : Record) :
    ∀ l : List (String × Record), dictGet (dictSet l k r) k = some r := by
  intro l
  induction l with
  | nil => unfold dictSet dictGet; rw [if_pos rfl]
  | cons kv rest ih =>
    obtain ⟨k2, v2⟩ := kv
    unfold dictSet
    by_cases h : k2 = k
    · rw [if_pos h]; unfold dictGet; rw [if_pos h]
    · rw [if_neg h]; unfold dictGet; rw [if_neg h]; exact ih

theorem dictGet_dictSet_ne (k k2 : String) (r : Record) (h : k2 ≠ k) :
    ∀ l : List (String × Record), dictGet (dictSet l k r) k2 = dictGet l k2 := by
  intro l
  induction l with
  | nil =>
    unfold dictSet dictGet
    rw [if_neg (fun he => h he.symm)]
    rfl
  | cons kv rest ih =>
    obtain ⟨k3, v3⟩ := kv
    unfold dictSet
    by_cases h3 : k3 = k
    · rw [if_pos h3]
      unfold dictGet
      rw [if_neg (by rw [h3]; exact fun he => h he.symm),
        if_neg (by rw [h3]; exact fun he => h he.symm)]
    · rw [if_neg h3]
      unfold dictGet
      by_cases h4 : k3 = k2
      · rw [if_pos h4, if_pos h4]
      · rw [if_neg h4, if_neg h4]; exact ih

/-! ## C10: `edit_phone` changes exactly one phone of one contact -/

/-- Claim C10 (confirmed).  For a stored contact (looked up under its own name,
as every entry written by `add_contact` is), a valid index and a phone that
passes validation, the edit path — `Record.edit_phone` followed by the
re-insertion `add_contact` performs (lines 53-55 and 86-89) — succeeds and:
the edited record keeps its name and birthday, its phone list keeps its
length, the phone at the edited index becomes the new one and every other
index is untouched, and every contact stored under any other name is exactly
what it was before. -/
theorem edit_phone_frame (book : AddressBook) (name : String) (r : Record) (index : Nat)
    (phone : String) (p : Phone)
    (hget : dictGet book.data name = some r)
    (hname : r.name = name)
    (hindex : index < r.phones.length)
    (hp : Phone.make (some phone) = .ok p) :
    ∃ book2 : AddressBook,
      book.edit_phone_at name index phone = .ok book2 ∧
      dictGet book2.data name = some { r with phones := r.phones.set index p } ∧
      ({ r with phones := r.phones.set index p } : Record).name = r.name ∧
      ({ r with phones := r.phones.set index p } : Record).birthday = r.birthday ∧
      (r.phones.set index p).length = r.phones.length ∧
      (r.phones.set index p)[index]? = some p ∧
      (∀ j : Nat, j ≠ index → (r.phones.set index p)[j]? = r.phones[j]?) ∧
      (∀ k : String, k ≠ name → dictGet book2.data k = dictGet book.data k) := by
  have hedit : r.edit_phone index phone = .ok { r with phones := r.phones.set index p } := by
    unfold Record.edit_phone
    rw [hp]
    dsimp only
    rw [if_pos hindex]
  refine ⟨book.add_contact { r with phones := r.phones.set index p }, ?_, ?_, rfl, rfl,
      List.length_set .., ?_, ?_, ?_⟩
  · unfold AddressBook.edit_phone_at
    rw [hget]
    dsimp only
    rw [hedit]
  · unfold AddressBook.add_contact
    dsimp only
    rw [hname]
    exact dictGet_dictSet_self name _ book.data
  · exact List.getElem?_set_self hindex
  · intro j hj
    exact List.getElem?_set_ne (fun he => hj he.symm)
  · intro k hk
    unfold AddressBook.add_contact
    dsimp only
    rw [hname]
    exact dictGet_dictSet_ne name k _ hk book.data

/-- Claim C10 (witness).  The frame theorem applied to a concrete two-contact
book: editing phone 0 of Alice. -/
theorem edit_phone_frame_witness :
    ∃ book2 : AddressBook,
      twoBook.edit_phone_at "Alice" 0 "+380111111111" = .ok book2 ∧
      dictGet book2.data "Alice" =
        some { aliceRecord with phones := aliceRecord.phones.set 0 ⟨some "+380111111111"⟩ } ∧
      ({ aliceRecord with phones := aliceRecord.phones.set 0 ⟨some "+380111111111"⟩} :
          Record).name = aliceRecord.name ∧
      ({ aliceRecord with phones := aliceRecord.phones.set 0 ⟨some "+380111111111"⟩} :
          Record).birthday = aliceRecord.birthday ∧
      (aliceRecord.phones.set 0 ⟨some "+380111111111"⟩).length = aliceRecord.phones.length ∧
      (aliceRecord.phones.set 0 ⟨some "+380111111111"⟩)[0]? = some ⟨some "+380111111111"⟩ ∧
      (∀ j : Nat, j ≠ 0 →
        (aliceRecord.phones.set 0 ⟨some "+380111111111"⟩)[j]? = aliceRecord.phones[j]?) ∧
      (∀ k : String, k ≠ "Alice" → dictGet book2.data k = dictGet twoBook.data k) :=
  edit_phone_frame twoBook "Alice" aliceRecord 0 "+380111111111" ⟨some "+380111111111"⟩
    (by decide) rfl (by decide) (by decide)
